import Mathlib

/-!
Shallow embedding of the two-pass assembler (C sources under src/) and proofs
about the behaviour its specification claims.  Text lines are modelled as
`List Char`; machine words as `Int`/`Nat` with explicit reductions modulo 1024
where the C code masks with 0x3FF; fallible C functions returning FALSE/NULL
become `Option`/`Bool` results.  Global mutable state (counters, the data
image, the symbol table, the static plan-consumption index of the second pass)
is threaded explicitly through state records.
-/

namespace Asm

/-! ### Character classification (ctype.h as used by utils.c) -/

/-- C `isspace` for the ASCII character set. -/
def isspc (c : Char) : Bool :=
  c = ' ' || c = '\t' || c = '\n' || c = '\x0d' || c = '\x0b' || c = '\x0c'

/-- C `isalpha` for ASCII. -/
def isalpha (c : Char) : Bool :=
  ('a' ≤ c && c ≤ 'z') || ('A' ≤ c && c ≤ 'Z')

/-- C `isdigit` for ASCII. -/
def isdigit (c : Char) : Bool :=
  '0' ≤ c && c ≤ '9'

/-- C `isalnum` for ASCII. -/
def isalnum (c : Char) : Bool :=
  isalpha c || isdigit c

/-! ### The base-4 codec (output.c)

The alphabet is a=0, b=1, c=2, d=3.  `decimal_to_base4` renders a 10-bit
two's-complement word as exactly five characters, `address_to_base4` renders
an address as exactly four characters, `count_to_base4` renders a count with
no padding, and `base4_to_decimal` decodes a five-character word.
-/

/-- Digit table `digits[] = "abcd"` of output.c; indexing is always with
`value % 4` in the source. -/
def digitChar (n : Nat) : Char :=
  if n % 4 = 0 then 'a' else if n % 4 = 1 then 'b' else if n % 4 = 2 then 'c' else 'd'

/-- The `while (value > 0) { temp[i++] = digits[value % 4]; value /= 4; }`
loop shared by the three encoders: least-significant digit first.  `fuel`
bounds the iteration count exactly as the C temp buffers bound it (5 for
words after the 10-bit mask, 4 for addresses, 10 for counts). -/
def base4Rev (fuel : Nat) (v : Nat) : List Char :=
  match fuel with
  | 0 => []
  | f + 1 => if v = 0 then [] else digitChar (v % 4) :: base4Rev f (v / 4)

/-- Reduction of an `int` to its unsigned 10-bit pattern as done at the top of
`decimal_to_base4` and in `encode_immediate_operands` of first_pass.c:
`if (value < 0) value = (1 << 10) + value;` followed by `value &= 0x3FF`.
The bit-and on a two's-complement int is the non-negative remainder mod 1024. -/
def twos10 (value : Int) : Nat :=
  (((if value < 0 then value + 1024 else value) % 1024).toNat)

/-- Model of `decimal_to_base4` of output.c: unsigned 10-bit pattern rendered as exactly
five base-4 characters, most significant first, left-padded with 'a'. -/
def decimal_to_base4 (value : Int) : List Char :=
  let v := twos10 value
  if v = 0 then ['a', 'a', 'a', 'a', 'a']
  else
    let temp := base4Rev 5 v
    (temp ++ List.replicate (5 - temp.length) 'a').reverse

/-- Model of `count_to_base4` of output.c: no padding, zero renders as "a"; the C
`temp[10]` buffer bounds the digit count at 10.  A negative count leaves the
digit loop immediately, producing the empty string. -/
def count_to_base4 (value : Int) : List Char :=
  if value = 0 then ['a']
  else if value < 0 then []
  else (base4Rev 10 value.toNat).reverse

/-- Model of `address_to_base4` of output.c: at most four digits are extracted
(`while (value > 0 && i < 4)`), then padded with 'a' to exactly four. -/
def address_to_base4 (value : Nat) : List Char :=
  if value = 0 then ['a', 'a', 'a', 'a']
  else
    let temp := base4Rev 4 value
    (temp ++ List.replicate (4 - temp.length) 'a').reverse

/-- Digit value of one character in the `switch` of `base4_to_decimal`;
`none` models the `default: return -9999` branch. -/
def charVal (c : Char) : Option Nat :=
  if c = 'a' then some 0
  else if c = 'b' then some 1
  else if c = 'c' then some 2
  else if c = 'd' then some 3
  else none

/-- Model of `base4_to_decimal` of output.c.  CRITICAL MODELLING POINT: the C local
`int result` is declared without an initialiser and the loop body only ever
executes `result += digit_value * power`, so the returned value depends on the
indeterminate initial content of `result`.  That initial content is made an
explicit parameter `result0`; the C source never sets it to 0. -/
def base4_to_decimal (result0 : Int) (s : List Char) : Int :=
  if s.length = 5 then
    match s.mapM charVal with
    | some ds =>
        let r : Int := result0 + (ds.foldl (fun acc d => acc * 4 + d) 0 : Nat)
        if r ≥ 512 then r - 1024 else r
    | none => -9999
  else -9999

/-- Model of `is_valid_dec_value` of output.c. -/
def is_valid_dec_value (value : Int) : Bool :=
  -512 ≤ value && value ≤ 511

/-! ### String utilities (utils.c) -/

/-- Model of `trim_whitespace` of utils.c: drop leading and trailing whitespace. -/
def trim_whitespace (s : List Char) : List Char :=
  (((s.dropWhile isspc).reverse).dropWhile isspc).reverse

/-- Model of `is_whitespace` of utils.c. -/
def is_whitespace (s : List Char) : Bool :=
  s.all isspc

/-- Model of `is_comment` of utils.c: first non-whitespace character is ';'. -/
def is_comment (s : List Char) : Bool :=
  match s.dropWhile isspc with
  | [] => false
  | c :: _ => c = ';'

/-- Copy loop of `extract_label` in utils.c: copy label characters until ':',
whitespace or the `j < MAX_LABEL_LENGTH` (31) bound, rejecting characters that
are neither alphanumeric nor '_'; afterwards skip whitespace and require a
':' with at least one copied character. -/
def extract_label_loop (s : List Char) (acc : List Char) (j : Nat) :
    Option (List Char) :=
  match s with
  | [] => none
  | c :: rest =>
    if isspc c || c = ':' || 31 ≤ j then
      match (c :: rest).dropWhile isspc with
      | ':' :: _ => if 0 < j then some acc.reverse else none
      | _ => none
    else if !(isalnum c) && c ≠ '_' then none
    else extract_label_loop rest (c :: acc) (j + 1)

/-- Model of `extract_label` of utils.c: `none` plays the role of returning FALSE. -/
def extract_label (line : List Char) : Option (List Char) :=
  match line.dropWhile isspc with
  | [] => none
  | c :: rest =>
    if c = '.' then none
    else if !(isalpha c) then none
    else extract_label_loop (c :: rest) [] 0

/-- Model of `skip_label` of utils.c. -/
def skip_label (line : List Char) : List Char :=
  let p := (line.dropWhile isspc).dropWhile (· ≠ ':')
  let p := match p with
    | ':' :: rest => rest
    | other => other
  p.dropWhile isspc

/-- Model of `get_next_token` of utils.c; the copy loop is bounded by
`j < MAX_LINE_LENGTH` (81). -/
def get_next_token (src : List Char) : Option (List Char) :=
  let s := src.dropWhile isspc
  match s with
  | [] => none
  | _ => some ((s.takeWhile (fun c => !isspc c)).take 81)

/-- The sixteen mnemonics, shared by `is_reserved_word`, `is_instruction`
(utils.c) and the opcode table of instruction_parser.c. -/
def instructionNames : List (List Char) :=
  ["mov".data, "cmp".data, "add".data, "sub".data, "lea".data,
   "clr".data, "not".data, "inc".data, "dec".data, "jmp".data,
   "bne".data, "jsr".data, "red".data, "prn".data, "rts".data, "stop".data]

/-- Register names r0..r7 from `is_reserved_word`. -/
def registerNames : List (List Char) :=
  ["r0".data, "r1".data, "r2".data, "r3".data,
   "r4".data, "r5".data, "r6".data, "r7".data]

/-- Directive names from `is_reserved_word`. -/
def directiveNames : List (List Char) :=
  [".data".data, ".string".data, ".mat".data, ".entry".data, ".extern".data]

/-- Model of `is_reserved_word` of utils.c. -/
def is_reserved_word (w : List Char) : Bool :=
  instructionNames.contains w || registerNames.contains w ||
    directiveNames.contains w

/-- Model of `is_instruction` of utils.c. -/
def is_instruction (w : List Char) : Bool :=
  instructionNames.contains w

/-- Model of `is_valid_label` of utils.c. -/
def is_valid_label (label : List Char) : Bool :=
  match label with
  | [] => false
  | c :: _ =>
    isalpha c && label.length ≤ 31 &&
      label.all (fun x => isalnum x || x = '_') && !is_reserved_word label

/-- Model of `remove_comments` of utils.c: truncate at the first ';'. -/
def remove_comments (line : List Char) : List Char :=
  line.takeWhile (· ≠ ';')

/-! ### strtol and strtok (stdlib/string.h as used by the parsers) -/

/-- Digit run to a natural number, most significant first. -/
def digitsToNat (ds : List Char) : Nat :=
  ds.foldl (fun acc c => acc * 10 + (c.toNat - '0'.toNat)) 0

/-- C `strtol(s, &endptr, 10)`.  Returns `(value, rest, converted)`; when no
digits are consumed the C function returns 0 and leaves `endptr = s`
(modelled by `converted = false` and `rest = s`). -/
def strtol10 (s : List Char) : Int × List Char × Bool :=
  let s1 := s.dropWhile isspc
  let (neg, s2) :=
    match s1 with
    | '-' :: rest => (true, rest)
    | '+' :: rest => (false, rest)
    | other => (false, other)
  let ds := s2.takeWhile isdigit
  if ds = [] then (0, s, false)
  else
    let v : Int := (digitsToNat ds : Nat)
    ((if neg then -v else v), s2.dropWhile isdigit, true)

/-- First `strtok(buf, delims)` call: skip leading delimiters, cut the token,
and return the remainder just past the single delimiter that terminated the
token (the delimiter the C code overwrites with NUL). -/
def strtok_first (isDelim : Char → Bool) (s : List Char) :
    Option (List Char × List Char) :=
  let s1 := s.dropWhile isDelim
  match s1 with
  | [] => none
  | _ =>
    let tok := s1.takeWhile (fun c => !isDelim c)
    let rest := s1.dropWhile (fun c => !isDelim c)
    some (tok, match rest with | [] => [] | _ :: t => t)

/-- Character-by-character worker for `strtok_all`; `cur` accumulates the
token currently being scanned (in reverse). -/
def strtok_go (isDelim : Char → Bool) : List Char → List Char → List (List Char)
  | [], cur => if cur = [] then [] else [cur.reverse]
  | c :: rest, cur =>
    if isDelim c then
      if cur = [] then strtok_go isDelim rest []
      else cur.reverse :: strtok_go isDelim rest []
    else strtok_go isDelim rest (c :: cur)

/-- Repeated `strtok(NULL, delims)` until exhaustion: the maximal runs of
non-delimiter characters, in order (strtok never yields empty tokens). -/
def strtok_all (isDelim : Char → Bool) (s : List Char) : List (List Char) :=
  strtok_go isDelim s []

/-- C `strstr(hay, needle)` followed by `needle`-length advance, as used in
`handle_data_directive` of first_pass.c: the suffix of `hay` just past the
first occurrence of `needle`. -/
def after_strstr (needle : List Char) : List Char → Option (List Char)
  | [] => if needle = [] then some [] else none
  | c :: t =>
    if needle.isPrefixOf (c :: t) then some ((c :: t).drop needle.length)
    else after_strstr needle t

/-! ### Symbol table (symbol_table.c)

The C table is a singly-linked list with insertion at the head; it is
modelled as a `List` whose head is the most recently added symbol.
-/

/-- Model of `SymbolType` of symbol_table.h. -/
inductive SymbolType where
  | code
  | data
  | external
  | entry
  deriving DecidableEq, Repr

/-- Model of `struct Symbol` of symbol_table.h (without the intrusive next pointer). -/
structure Symb where
  name : List Char
  address : Int
  type : SymbolType
  is_entry : Bool
  is_external : Bool
  deriving DecidableEq, Repr

/-- Model of `find_symbol` of symbol_table.c. -/
def find_symbol (name : List Char) (tbl : List Symb) : Option Symb :=
  tbl.find? (fun s => s.name = name)

/-- Model of `is_label_defined` of symbol_table.c. -/
def is_label_defined (name : List Char) (tbl : List Symb) : Bool :=
  (find_symbol name tbl).isSome

/-- Model of `add_symbol` of symbol_table.c: reject duplicates, truncate the stored
name to 31 characters (`strncpy(..., MAX_SYMBOL_NAME_LENGTH - 1)`), set
`is_external` from the type, and push at the head of the list. -/
def add_symbol (name : List Char) (address : Int) (type : SymbolType)
    (tbl : List Symb) : Option (List Symb) :=
  if (find_symbol name tbl).isSome then none
  else
    some ({ name := name.take 31, address := address, type := type,
            is_entry := false,
            is_external := type = SymbolType.external } :: tbl)

/-- Model of `mark_symbol_as_entry` of symbol_table.c: set `is_entry` on the first
symbol with the given name; the Bool reports whether it was found. -/
def mark_symbol_as_entry (name : List Char) :
    List Symb → List Symb × Bool
  | [] => ([], false)
  | s :: rest =>
    if s.name = name then ({ s with is_entry := true } :: rest, true)
    else
      let (rest', found) := mark_symbol_as_entry name rest
      (s :: rest', found)

/-- Model of `update_data_symbols` of symbol_table.c: add `icf` to the address of
every DATA symbol. -/
def update_data_symbols (icf : Int) (tbl : List Symb) : List Symb :=
  tbl.map (fun s =>
    if s.type = SymbolType.data then { s with address := s.address + icf }
    else s)

/-! ### Data image and the data-directive parsers (data_image.c, data_parser.c)

The global trio `data_image` / `DC` / `err_found` that the first pass threads
through every data directive is gathered into one state record.
-/

/-- Global state touched by the data parsers: the data image
(data_image.c), the data counter `DC` and the flag `err_found`
(first_pass.c globals). -/
structure DPState where
  image : List Int
  dc : Nat
  err : Bool
  deriving DecidableEq, Repr

/-- Model of `store_data` of data_image.c.  The dynamic array starts at capacity 100
and doubles, capped at `MAX_DATA_IMAGE_SIZE` = 1000; `expand_data_image`
fails (setting `err_found`) exactly when the current size has reached 1000.
The Bool is the C return value. -/
def store_data (value : Int) (st : DPState) : DPState × Bool :=
  if 1000 ≤ st.image.length then ({ st with err := true }, false)
  else ({ st with image := st.image ++ [value] }, true)

/-- Scanner of `has_missing_commas` in data_parser.c: count number starts and
commas, stopping at ';'.  The in-number flag mirrors the C `in_number`. -/
def missing_commas_scan : List Char → Bool → Nat → Nat → Nat × Nat
  | [], _, nc, cc => (nc, cc)
  | c :: rest, in_number, nc, cc =>
    if c = ';' then (nc, cc)
    else if isdigit c ||
        (c = '-' && (match rest with | d :: _ => isdigit d | [] => false)) then
      if in_number then missing_commas_scan rest true nc cc
      else missing_commas_scan rest true (nc + 1) cc
    else if c = ',' then missing_commas_scan rest false nc (cc + 1)
    else missing_commas_scan rest false nc cc

/-- Model of `has_missing_commas` of data_parser.c. -/
def has_missing_commas (line : List Char) : Bool :=
  let (nc, cc) := missing_commas_scan (line.dropWhile isspc) false 0 0
  decide (1 < nc) && decide (cc ≠ nc - 1)

/-- Double-comma scanner of `parse_data_values`: true when two commas are
separated only by whitespace. -/
def has_double_comma : List Char → Bool → Bool
  | [], _ => false
  | c :: rest, found =>
    if c = ',' then (if found then true else has_double_comma rest true)
    else if !isspc c then has_double_comma rest false
    else has_double_comma rest found

/-- Token handling shared by each iteration of the `parse_data_values` loop
(data_parser.c lines 175-211): trim both ends; the token must be non-empty
and fully consumed by `strtol` (`*endptr != '\0' || endptr == token`).
`none` covers both per-token error paths (ERROR_SYNTAX for an empty token,
ERROR_INVALID_OPERAND for a failed conversion) — the two are reported under
different error codes but have the identical effect of setting `err_found`
and abandoning the rest of the line. -/
def data_token_val (tok : List Char) : Option Int :=
  let tok1 := tok.dropWhile isspc
  let tok2 := ((tok1.reverse).dropWhile isspc).reverse
  if tok2 = [] then none
  else
    let (v, restc, conv) := strtol10 tok2
    if !conv || restc ≠ [] then none else some v

/-- Token handling of the `parse_matrix` value loop: the source checks only
`*endptr != '\0'` there, but a conversion that never started leaves `endptr`
at the (non-empty) token, so the condition coincides with the
`parse_data_values` one; the empty-token and failed-conversion error paths
(ERROR_SYNTAX / ERROR_INVALID_OPERAND) both just set `err_found` and
continue with the next token. -/
def mat_token_val (tok : List Char) : Option Int :=
  let tok1 := tok.dropWhile isspc
  let tok2 := ((tok1.reverse).dropWhile isspc).reverse
  if tok2 = [] then none
  else
    let (v, restc, _) := strtol10 tok2
    if restc ≠ [] then none else some v

/-- Per-token loop of `parse_data_values` (data_parser.c lines 172-235):
trim the token; an empty token or a non-numeric token aborts the line with
`err_found` set; an out-of-range value records the error and CONTINUES with
the next token; an in-range value is stored in the data image and `DC` is
incremented.  A `store_data` failure aborts the line. -/
def data_values_loop : List (List Char) → DPState → DPState
  | [], st => st
  | tok :: rest, st =>
    match data_token_val tok with
    | none => { st with err := true }
    | some v =>
      if v < -512 || 511 < v then
        data_values_loop rest { st with err := true }
      else
        let (st2, ok) := store_data v st
        if !ok then st2
        else data_values_loop rest { st2 with dc := st2.dc + 1 }

/-- Model of `parse_data_values` of data_parser.c: the syntactic pre-checks (empty
payload, leading / trailing / double comma, missing commas) followed by the
token loop over `strtok(copy, ",")`. -/
def parse_data_values (line : List Char) (st : DPState) : DPState :=
  let line1 := line.dropWhile isspc
  match line1 with
  | [] => { st with err := true }
  | c :: _ =>
    if c = ',' then { st with err := true }
    else if (match (line1.reverse).dropWhile isspc with
             | ',' :: _ => true
             | _ => false) then { st with err := true }
    else if has_double_comma line1 false then { st with err := true }
    else if has_missing_commas line1 then { st with err := true }
    else data_values_loop (strtok_all (· = ',') line1) st

/-- Character-storing loop of `parse_string_value`: every character strictly
between the quotes is stored as its code point while no invalid character has
been seen; the first character outside 32..126 records the error once. -/
def string_store_loop : List Char → Bool → DPState → DPState × Bool
  | [], flag, st => (st, flag)
  | ch :: rest, flag, st =>
    if ch.toNat < 32 || 126 < ch.toNat then
      if !flag then string_store_loop rest true { st with err := true }
      else string_store_loop rest flag st
    else if !flag then
      let (st2, ok) := store_data (ch.toNat : Int) st
      if !ok then (st2, flag)
      else string_store_loop rest flag { st2 with dc := st2.dc + 1 }
    else string_store_loop rest flag st

/-- Model of `parse_string_value` of data_parser.c.  The C leading-whitespace loop
tests `*line` while incrementing `p`, so it is a no-op whenever the payload
does not begin with whitespace (every caller passes a payload with leading
whitespace already skipped); the model therefore starts at the first
character.  The zero terminator is appended only when no invalid character
was seen AND `err_found` is still clear, exactly as in the source. -/
def parse_string_value (line : List Char) (st : DPState) : DPState :=
  let line_copy := remove_comments line
  match line_copy with
  | '"' :: start =>
    let content := (start.reverse.dropWhile (· ≠ '"')).reverse
    match content with
    | [] =>
      -- strrchr found no closing quote
      { st with err := true }
    | _ =>
      let body := content.dropLast
      let after := start.drop content.length
      let (st1, flag) := string_store_loop body false st
      let st2 :=
        if !flag && !st1.err then
          let (st2', ok) := store_data 0 st1
          if !ok then st2' else { st2' with dc := st2'.dc + 1 }
        else st1
      match after.dropWhile isspc with
      | [] => st2
      | ';' :: _ => st2
      | _ => { st2 with err := true }
  | _ => { st with err := true }

/-- Value loop of `parse_matrix` (data_parser.c lines 596-652).  Returns the
state, the final `actual_values` counter and an abort flag: a `store_data`
failure makes `parse_matrix` return immediately (no zero fill), whereas the
too-many-values `break` only stops the loop. -/
def mat_values_loop (exp_vals : Nat) :
    List (List Char) → Nat → DPState → DPState × Nat × Bool
  | [], actual, st => (st, actual, false)
  | tok :: rest, actual, st =>
    match mat_token_val tok with
    | none => mat_values_loop exp_vals rest actual { st with err := true }
    | some v =>
      if exp_vals < actual + 1 then ({ st with err := true }, actual + 1, false)
      else
        let (st2, ok) := store_data v st
        if !ok then (st2, actual + 1, true)
        else mat_values_loop exp_vals rest (actual + 1)
            { st2 with dc := st2.dc + 1 }

/-- Zero-fill loop of `parse_matrix`: store `n` zero words, incrementing `DC`
for each; a `store_data` failure aborts. -/
def mat_fill : Nat → DPState → DPState
  | 0, st => st
  | n + 1, st =>
    let (st2, ok) := store_data 0 st
    if !ok then st2
    else mat_fill n { st2 with dc := st2.dc + 1 }

/-- Tail of `parse_matrix` after both dimensions have been parsed: run the
value loop over the comma-separated tokens (when any text follows the
header) and zero-fill up to `rows * cols` words unless a store aborted. -/
def mat_store_phase (exp_vals : Nat) (values_part : List Char)
    (st : DPState) : DPState :=
  let (st1, actual, aborted) :=
    match values_part with
    | [] => (st, 0, false)
    | _ => mat_values_loop exp_vals (strtok_all (· = ',') values_part) 0 st
  if aborted then st1
  else if actual < exp_vals then mat_fill (exp_vals - actual) st1
  else st1

/-- Dimension parser shared by the rows and cols fields of `parse_matrix`:
the text between the brackets must (after trimming) be a non-empty,
comma-free string that `strtol` fully consumes, yielding a positive value. -/
def mat_dimension (field : List Char) : Option Int :=
  let p := field.dropWhile isspc
  match p with
  | [] => none
  | _ =>
    if p.contains ',' then none
    else
      let (v, restc, conv) := strtol10 p
      if !conv then none
      else if restc.dropWhile isspc ≠ [] then none
      else if v ≤ 0 then none
      else some v

/-- Model of `parse_matrix` of data_parser.c: `[rows][cols]` header followed by an
optional comma-separated value list; values are stored in order and the
remainder up to `rows * cols` is zero-filled.  NOTE: the source never stores
the two dimension values themselves into the data image. -/
def parse_matrix (line : List Char) (st : DPState) : DPState :=
  let ptr := line.dropWhile isspc
  match ptr with
  | '[' :: p1 =>
    let rows_str := p1.takeWhile (· ≠ ']')
    let rest1 := p1.dropWhile (· ≠ ']')
    match rest1 with
    | ']' :: afterRows =>
      (match mat_dimension rows_str with
      | none => { st with err := true }
      | some rows =>
        match afterRows with
        | '[' :: p2 =>
          let cols_str := p2.takeWhile (· ≠ ']')
          let rest2 := p2.dropWhile (· ≠ ']')
          match rest2 with
          | ']' :: afterCols =>
            (match mat_dimension cols_str with
            | none => { st with err := true }
            | some cols =>
              mat_store_phase (rows * cols).toNat
                (afterCols.dropWhile isspc) st)
          | _ => { st with err := true }
        | _ => { st with err := true })
    | _ => { st with err := true }
  | _ => { st with err := true }

/-! ### Instruction parsing (instruction_parser.c) -/

/-- Model of `AddressingMode` of instruction_parser.h. -/
inductive AddressingMode where
  | immediate
  | direct
  | matrix
  | register
  deriving DecidableEq, Repr

/-- Numeric value of an addressing mode (the enum values 0..3). -/
def AddressingMode.val : AddressingMode → Nat
  | .immediate => 0
  | .direct => 1
  | .matrix => 2
  | .register => 3

/-- Model of `struct Operand` of instruction_parser.h.  `memset(operand, 0, ...)`
corresponds to the all-zero default values used below. -/
structure Operand where
  mode : AddressingMode := .immediate
  value : Int := 0
  reg1 : Nat := 0
  reg2 : Nat := 0
  symbol_name : List Char := []
  is_symbol : Bool := false
  deriving DecidableEq, Repr

/-- Model of `struct Instruction` of instruction_parser.h (the redundant `type` field
is recomputed from the opcode where needed). -/
structure Instr where
  opcode : Nat
  source : Operand := {}
  target : Operand := {}
  word_count : Nat := 1
  has_source : Bool := false
  has_target : Bool := false
  deriving DecidableEq, Repr

/-- Model of `get_instruction_opcode` of instruction_parser.c: position in the
mnemonic table (the table lists the opcodes 0..15 in order), or `none` for
the C return value -1. -/
def get_instruction_opcode (name : List Char) : Option Nat :=
  instructionNames.findIdx? (· = name)

/-- Model of `is_register` of instruction_parser.c: exactly two characters, 'r'
followed by '0'..'7'. -/
def is_register (s : List Char) : Option Nat :=
  match s with
  | ['r', d] => if '0' ≤ d && d ≤ '7' then some (d.toNat - '0'.toNat) else none
  | _ => none

/-- Model of `is_immediate` of instruction_parser.c: '#' followed by text that is not
empty, does not start with whitespace, is fully consumed by `strtol`, and
yields a value in -512..511. -/
def is_immediate (s : List Char) : Option Int :=
  match s with
  | '#' :: rest =>
    (match rest with
    | [] => none
    | c :: _ =>
      if isspc c then none
      else
        let (v, restc, conv) := strtol10 rest
        if !conv || restc ≠ [] then none
        else if v < -512 || 511 < v then none
        else some v)
  | _ => none

/-- Split a character list at the first occurrence of `ch` (C `strchr`):
`(before, after)` with the matched character consumed. -/
def splitAtChar (ch : Char) (s : List Char) :
    Option (List Char × List Char) :=
  let pre := s.takeWhile (· ≠ ch)
  match s.dropWhile (· ≠ ch) with
  | [] => none
  | _ :: t => some (pre, t)

/-- Model of `is_matrix_reference` of instruction_parser.c on the whitespace-stripped
operand text: `LABEL[REG1][REG2]`.  The searches mirror the C `strchr`
chain: the second '[' is searched from the first ']' onwards (text between
them is ignored), registers are whitespace-stripped before validation, '#'
inside a bracket is a distinct error, and the label must be valid.  Returns
`(label, reg1, reg2)`. -/
def is_matrix_reference (s : List Char) :
    Option (List Char × Nat × Nat) := do
  let (label_part, after1) ← splitAtChar '[' s
  let (reg1_raw, after2) ← splitAtChar ']' after1
  let (_, after3) ← splitAtChar '[' after2
  let (reg2_raw, _) ← splitAtChar ']' after3
  if label_part.length = 0 || 31 < label_part.length then none
  else
    let r1 := reg1_raw.filter (fun c => !isspc c)
    let r2 := reg2_raw.filter (fun c => !isspc c)
    if !is_valid_label label_part then none
    else if (match r1 with | '#' :: _ => true | _ => false) then none
    else if (match r2 with | '#' :: _ => true | _ => false) then none
    else do
      let n1 ← is_register r1
      let n2 ← is_register r2
      some (label_part, n1, n2)

/-- Model of `parse_operand` of instruction_parser.c.  The operand text is first
stripped of ALL whitespace characters (the C copy loop skips every isspace
character); the branches are tried in source order: '#', 'r', '[', label.
The space-after-'#' check inspects the ORIGINAL text.  `none` models a
FALSE return, which always sets `err_found` at the call site. -/
def parse_operand (operand_str : List Char) : Option Operand :=
  let trimmed := operand_str.filter (fun c => !isspc c)
  match trimmed with
  | '#' :: t =>
    let after_hash := (operand_str.dropWhile (· ≠ '#')).drop 1
    if (match after_hash with
        | c :: _ => c = ' ' || c = '\t'
        | [] => false) then none
    else if (match t with | '#' :: _ => true | _ => false) then none
    else
      (is_immediate trimmed).map (fun v =>
        { mode := .immediate, value := v })
  | 'r' :: _ =>
    (is_register trimmed).map (fun n =>
      { mode := .register, value := (n : Int) })
  | _ =>
    if trimmed.contains '[' then
      (is_matrix_reference trimmed).map (fun (lab, n1, n2) =>
        { mode := .matrix, reg1 := n1, reg2 := n2,
          symbol_name := lab.take 31, is_symbol := true })
    else if is_valid_label trimmed then
      some { mode := .direct, symbol_name := trimmed.take 31,
             is_symbol := true }
    else none

/-- Model of `validate_addressing_modes` of instruction_parser.c, on the numeric mode
values exactly as the C switch reads them. -/
def validate_addressing_modes (opcode : Nat) (source_mode target_mode : Nat)
    (has_source has_target : Bool) : Bool :=
  if opcode = 0 || opcode = 2 || opcode = 3 then
    has_source && has_target && source_mode ≤ 3 &&
      (1 ≤ target_mode && target_mode ≤ 3)
  else if opcode = 1 then
    has_source && has_target && source_mode ≤ 3 && target_mode ≤ 3
  else if opcode = 4 then
    has_source && has_target &&
      (1 ≤ source_mode && source_mode ≤ 2) &&
      (1 ≤ target_mode && target_mode ≤ 3)
  else if 5 ≤ opcode && opcode ≤ 12 then
    !has_source && has_target && (1 ≤ target_mode && target_mode ≤ 3)
  else if opcode = 13 then
    !has_source && has_target && target_mode ≤ 3
  else if opcode = 14 || opcode = 15 then
    !has_source && !has_target
  else false

/-- Model of `get_instruction_word_count` of instruction_parser.c: one base word; a
register pair shares a single extra word; otherwise immediate / direct /
register operands add one word each and a matrix operand adds two. -/
def get_instruction_word_count (i : Instr) : Nat :=
  if i.has_source && i.has_target &&
      i.source.mode = AddressingMode.register &&
      i.target.mode = AddressingMode.register then 2
  else
    let src :=
      if i.has_source then
        (match i.source.mode with
         | .matrix => 2
         | _ => 1)
      else 0
    let tgt :=
      if i.has_target then
        (match i.target.mode with
         | .matrix => 2
         | _ => 1)
      else 0
    1 + src + tgt

/-- Operand tokens of `parse_instruction`: `strtok(NULL, ",")` repeatedly,
each token stripped of leading whitespace, empty tokens skipped. -/
def operand_tokens (rest : List Char) : List (List Char) :=
  ((strtok_all (· = ',') rest).map (fun t => t.dropWhile isspc)).filter
    (· ≠ [])

/-- Model of `parse_instruction` of instruction_parser.c: mnemonic token (split on
space/tab), comma-separated operands, per-arity operand-count checks,
operand parsing, addressing-mode validation and word count.  `none` models
every FALSE return that reports an error. -/
def parse_instruction (line : List Char) : Option Instr := do
  let lc := remove_comments line
  let (nameTok, rest) ← strtok_first (fun c => c = ' ' || c = '\t') lc
  let opcode ← get_instruction_opcode nameTok
  let toks := operand_tokens rest
  if 2 < toks.length then none
  else
    let base : Instr ← (do
      if 14 ≤ opcode then
        -- INST_NO_OPERANDS (rts, stop)
        if toks.length ≠ 0 then none
        else some { opcode := opcode, has_source := false, has_target := false }
      else if 5 ≤ opcode then
        -- INST_ONE_OPERAND: the single operand goes into the target
        if toks.length ≠ 1 then none
        else do
          let tgt ← parse_operand toks[0]!
          some { opcode := opcode, target := tgt,
                 has_source := false, has_target := true }
      else
        -- INST_TWO_OPERANDS
        if toks.length ≠ 2 then none
        else do
          let src ← parse_operand toks[0]!
          let tgt ← parse_operand toks[1]!
          some { opcode := opcode, source := src, target := tgt,
                 has_source := true, has_target := true })
    if !validate_addressing_modes opcode
        (if base.has_source then base.source.mode.val else 0)
        (if base.has_target then base.target.mode.val else 0)
        base.has_source base.has_target then none
    else some { base with word_count := get_instruction_word_count base }

/-! ### First pass (first_pass.c) -/

/-- Model of `InstructionData` of first_pass.h: the per-instruction plan recorded by
the first pass and consumed by the second (`immediate_count` is the length
of `immediate_word`). -/
structure InstructionData where
  ic_address : Nat
  word_count : Nat
  first_word : Nat
  immediate_word : List Nat
  deriving DecidableEq, Repr

/-- Mutable state of the first pass: the globals `IC`, `DC`, `err_found`, the
symbol table, the static `instruction_table` with `instruction_count`, and
the data image. -/
structure FPState where
  ic : Nat := 100
  dc : Nat := 0
  err : Bool := false
  symbols : List Symb := []
  plans : List InstructionData := []
  image : List Int := []
  deriving DecidableEq, Repr

/-- View of the data-parser state inside the first-pass state. -/
def FPState.toDP (st : FPState) : DPState :=
  { image := st.image, dc := st.dc, err := st.err }

/-- Write a data-parser state back into the first-pass state. -/
def FPState.withDP (st : FPState) (d : DPState) : FPState :=
  { st with image := d.image, dc := d.dc, err := d.err }

/-- Model of `build_first_instruction_word` of first_pass.c: opcode in bits 6-9,
source mode in bits 4-5 (only when a source operand exists), target mode in
bits 2-3 (only when a target operand exists), ARE bits 0-1 zero. -/
def build_first_instruction_word (i : Instr) : Nat :=
  ((i.opcode <<< 6) |||
    (if i.has_source then i.source.mode.val <<< 4 else 0)) |||
    (if i.has_target then i.target.mode.val <<< 2 else 0)

/-- Model of `encode_immediate_operands` of first_pass.c: the 10-bit two's-complement
patterns of the immediate operands, source first. -/
def encode_immediate_operands (i : Instr) : List Nat :=
  (if i.has_source && i.source.mode = AddressingMode.immediate then
    [twos10 i.source.value]
  else []) ++
  (if i.has_target && i.target.mode = AddressingMode.immediate then
    [twos10 i.target.value]
  else [])

/-- Model of `handle_instruction` of first_pass.c: define the label (kind CODE, at the
current IC) before parsing, parse the instruction, record the plan in the
instruction table when it is not full (`MAX_INSTRUCTION_IMAGE_SIZE` = 1000),
and advance IC by the word count. -/
def handle_instruction (label : Option (List Char)) (line : List Char)
    (st : FPState) : FPState :=
  let instruction_part := if label.isSome then skip_label line else line
  let step :=
    match label with
    | some lab =>
      (match add_symbol lab (st.ic : Int) SymbolType.code st.symbols with
      | none => none
      | some tbl => some { st with symbols := tbl })
    | none => some st
  match step with
  | none => { st with err := true }
  | some st1 =>
    match parse_instruction instruction_part with
    | none => { st1 with err := true }
    | some i =>
      let plan : InstructionData :=
        { ic_address := st1.ic, word_count := i.word_count,
          first_word := build_first_instruction_word i,
          immediate_word := encode_immediate_operands i }
      let plans' :=
        if st1.plans.length < 1000 then st1.plans ++ [plan] else st1.plans
      { st1 with plans := plans', ic := st1.ic + i.word_count }

/-- Model of `handle_extern_directive` of first_pass.c: skip the ".extern" keyword,
validate the operand label and add it with address 0 and kind EXTERNAL. -/
def handle_extern_directive (line : List Char) (st : FPState) : FPState :=
  let ptr := line.dropWhile isspc
  let ptr := if ".extern".data.isPrefixOf ptr then ptr.drop 7 else ptr
  let ptr := ptr.dropWhile isspc
  match get_next_token ptr with
  | none => { st with err := true }
  | some lab =>
    if !is_valid_label lab then { st with err := true }
    else if is_label_defined lab st.symbols then { st with err := true }
    else
      match add_symbol lab 0 SymbolType.external st.symbols with
      | none => st
      | some tbl => { st with symbols := tbl }

/-- Model of `handle_entry_directive` of first_pass.c: syntactic validation only; the
symbol table is not touched in the first pass. -/
def handle_entry_directive (line : List Char) (st : FPState) : FPState :=
  let ptr := line.dropWhile isspc
  let ptr := if ".entry".data.isPrefixOf ptr then ptr.drop 6 else ptr
  let ptr := ptr.dropWhile isspc
  match get_next_token ptr with
  | none => { st with err := true }
  | some lab =>
    if !is_valid_label lab then { st with err := true }
    else st

/-- Model of `handle_data_directive` of first_pass.c: define the label (kind DATA, at
the current DC), locate the payload after the directive keyword with
`strstr`, and dispatch to the matching data parser. -/
def handle_data_directive (label : Option (List Char))
    (directive : List Char) (line : List Char) (st : FPState) : FPState :=
  let step :=
    match label with
    | some lab =>
      if lab = [] then some st
      else if !is_valid_label lab then none
      else if is_label_defined lab st.symbols then none
      else
        (match add_symbol lab (st.dc : Int) SymbolType.data st.symbols with
        | none => some st
        | some tbl => some { st with symbols := tbl })
    | none => some st
  match step with
  | none => { st with err := true }
  | some st1 =>
    match after_strstr directive line with
    | none => { st1 with err := true }
    | some afterDir =>
      let payload := afterDir.dropWhile isspc
      if directive = ".data".data then
        st1.withDP (parse_data_values payload st1.toDP)
      else if directive = ".string".data then
        st1.withDP (parse_string_value payload st1.toDP)
      else if directive = ".mat".data then
        st1.withDP (parse_matrix payload st1.toDP)
      else { st1 with err := true }

/-- Dispatch part of `process_line` of first_pass.c, after label handling. -/
def process_line_dispatch (label : Option (List Char)) (rest : List Char)
    (line : List Char) (st : FPState) : FPState :=
  match get_next_token rest with
  | none => { st with err := true }
  | some tok =>
    if tok = ".data".data || tok = ".string".data || tok = ".mat".data then
      handle_data_directive label tok rest st
    else if tok = ".entry".data then
      if label.isSome then { st with err := true }
      else handle_entry_directive rest st
    else if tok = ".extern".data then
      if label.isSome then { st with err := true }
      else handle_extern_directive rest st
    else if is_instruction tok then handle_instruction label line st
    else { st with err := true }

/-- Model of `process_line` of first_pass.c: a line whose first non-blank character is
'.' carries no label; otherwise a leading `LABEL:` is extracted, validated
and checked against the table before dispatching on the first token. -/
def process_line (line : List Char) (st : FPState) : FPState :=
  let restA := line.dropWhile isspc
  match restA with
  | '.' :: _ => process_line_dispatch none restA line st
  | _ =>
    match extract_label line with
    | some lab =>
      if !is_valid_label lab then { st with err := true }
      else if is_label_defined lab st.symbols then { st with err := true }
      else process_line_dispatch (some lab) (skip_label line) line st
    | none => process_line_dispatch none restA line st

/-- Body of the first-pass line loop: the fgets-based length check (a source
line longer than 80 characters cannot carry its '\n' inside the 81-byte
buffer and is reported as a syntax error, its tail being discarded),
trimming, and the blank/comment skip. -/
def first_pass_line (st : FPState) (raw : List Char) : FPState :=
  if 80 < raw.length then { st with err := true }
  else
    let line := trim_whitespace raw
    if is_whitespace line || is_comment line then st
    else process_line line st

/-- Line loop of `first_pass` over the expanded source. -/
def first_pass_loop (lines : List (List Char)) : FPState :=
  lines.foldl first_pass_line {}

/-- Result of a successful first pass: the frozen counters ICF / DCF, the
shifted symbol table, the recorded plans and the data image. -/
structure FirstPassOut where
  icf : Nat
  dcf : Nat
  symbols : List Symb
  plans : List InstructionData
  image : List Int
  deriving DecidableEq, Repr

/-- Model of `first_pass` of first_pass.c: run the line loop; on any recorded error
return failure; otherwise freeze IC and DC as ICF and DCF, shift every DATA
symbol by ICF, and succeed.  NOTE: the source contains no comparison of
ICF + DCF against any memory bound. -/
def first_pass (lines : List (List Char)) : Option FirstPassOut :=
  let st := first_pass_loop lines
  if st.err then none
  else
    some { icf := st.ic, dcf := st.dc,
           symbols := update_data_symbols (st.ic : Int) st.symbols,
           plans := st.plans, image := st.image }

/-! ### Second pass (second_pass.c)

The file-scope globals of the second pass (`err_found`, the assembly context,
the current IC) and the FUNCTION-LOCAL STATIC `instruction_index` of
`handle_instruction_second_pass` are threaded through `SPState`.  Two slips
in the C source make it invalid C89 and are modelled by their evident intent:
`instruction->soucre.mode` stands for `source.mode`, and the undeclared
`immediate_count++` index stands for the declared local `immediate_index`.
The operand path of `encode_instruction_with_stored_data` falls off the end
of the function without a return statement; the model completes it with the
documented success value TRUE. -/

/-- Second-pass state: instruction image (store order), entry and external
lists (linked lists with HEAD insertion), the walking IC, the static plan
index, the `err_found` global, `context->has_errors`, and the symbol table
(mutated by entry marking). -/
structure SPState where
  image : List (Nat × Int) := []
  entry_list : List (List Char × Int) := []
  external_list : List (List Char × Int) := []
  current_ic : Nat := 100
  idx : Nat := 0
  err : Bool := false
  has_errors : Bool := false
  symbols : List Symb := []
  deriving DecidableEq, Repr

/-- Model of `store_instruction_word` of second_pass.c: bounds check 0..255 on the
address and the capacity bound `MAX_INSTRUCTION_IMAGE_SIZE` = 1000. -/
def store_instruction_word (word : Int) (address : Nat)
    (image : List (Nat × Int)) : Option (List (Nat × Int)) :=
  if 255 < address then none
  else if 1000 ≤ image.length then none
  else some (image ++ [(address, word)])

/-- Store helper: a failed `store_instruction_word` reports the overflow
error, setting `err_found` and `has_errors`. -/
def sp_store (word : Int) (address : Nat) (st : SPState) : SPState × Bool :=
  match store_instruction_word word address st.image with
  | none => ({ st with err := true, has_errors := true }, false)
  | some img => ({ st with image := img }, true)

/-- Model of `add_entry_symbol` of second_pass.c: truncate the name to 31 characters
and push the node at the HEAD of the entry list. -/
def add_entry_symbol (st : SPState) (name : List Char) (address : Int) :
    SPState :=
  { st with entry_list := (name.take 31, address) :: st.entry_list }

/-- Model of `add_external_reference` of second_pass.c: truncate the name to 31
characters and push the node at the HEAD of the external list. -/
def add_external_reference (st : SPState) (name : List Char)
    (address : Int) : SPState :=
  { st with external_list := (name.take 31, address) :: st.external_list }

/-- Model of `encode_operand` of second_pass.c.  Shifts on possibly-negative ints are
modelled as multiplication (two's-complement `<<` is arithmetic here). -/
def encode_operand (op : Operand) (address : Nat) (is_source : Bool)
    (st : SPState) : SPState × Bool :=
  match op.mode with
  | .immediate =>
    sp_store (op.value * 4) address st
  | .direct =>
    (match find_symbol op.symbol_name st.symbols with
    | none => ({ st with err := true, has_errors := true }, false)
    | some sym =>
      if sym.is_external then
        sp_store 1 address
          (add_external_reference st op.symbol_name (address : Int))
      else
        sp_store (sym.address * 4 + 2) address st)
  | .matrix =>
    (match find_symbol op.symbol_name st.symbols with
    | none => ({ st with err := true, has_errors := true }, false)
    | some sym =>
      let (st1, ok) :=
        if sym.is_external then
          sp_store 1 address
            (add_external_reference st op.symbol_name (address : Int))
        else
          sp_store (sym.address * 4 + 2) address st
      if !ok then (st1, false)
      else
        sp_store ((op.reg1 : Int) * 64 + (op.reg2 : Int) * 4) (address + 1)
          st1)
  | .register =>
    if is_source then sp_store (op.value * 64) address st
    else sp_store (op.value * 4) address st

/-- Model of `encode_instruction_with_stored_data` of second_pass.c: store the
pre-built first word; when source and target are both registers store ONE
combined word, built in the source as
`(instruction->source.value << 6) | (instruction->source.value << 2)`
(the SOURCE register number is used for both fields); otherwise encode the
source then the target, immediates coming from the stored plan words. -/
def encode_instruction_with_stored_data (i : Instr) (pd : InstructionData)
    (address : Nat) (st : SPState) : SPState × Bool :=
  let (st1, ok1) := sp_store (pd.first_word : Int) address st
  if !ok1 then (st1, false)
  else if i.has_source && i.has_target &&
      i.source.mode = AddressingMode.register &&
      i.target.mode = AddressingMode.register then
    let register_word : Int := i.source.value * 64 + i.source.value * 4
    sp_store register_word (address + 1) st1
  else
    let ca := address + 1
    let srcPhase : SPState × Bool × Nat :=
      if i.has_source then
        if i.source.mode = AddressingMode.immediate then
          if 0 < pd.immediate_word.length then
            let (s, o) := sp_store ((pd.immediate_word.headD 0 : Nat) : Int)
              ca st1
            (s, o, 1)
          else (st1, true, 0)
        else
          let (s, o) := encode_operand i.source ca true st1
          (s, o, 0)
      else (st1, true, 0)
    match srcPhase with
    | (st2, ok2, immUsed) =>
      if !ok2 then (st2, false)
      else
        let ca2 :=
          if i.has_source then
            ca + (match i.source.mode with | .matrix => 2 | _ => 1)
          else ca
        if i.has_target then
          if i.target.mode = AddressingMode.immediate then
            if immUsed < pd.immediate_word.length then
              sp_store ((pd.immediate_word.getD immUsed 0 : Nat) : Int)
                ca2 st2
            else (st2, true)
          else encode_operand i.target ca2 false st2
        else (st2, true)

/-- Model of `handle_instruction_second_pass` of second_pass.c: fetch the plan at the
static `instruction_index` (a missing plan or an IC mismatch is a general
error), re-parse the instruction line, encode with the stored data, then
advance the IC by the stored word count and step the static index. -/
def handle_instruction_second_pass (line : List Char)
    (plans : List InstructionData) (st : SPState) : SPState :=
  match plans[st.idx]? with
  | none => { st with err := true, has_errors := true }
  | some pd =>
    if pd.ic_address ≠ st.current_ic then
      { st with err := true, has_errors := true }
    else
      let instruction_part :=
        if (extract_label line).isSome then skip_label line else line
      match parse_instruction instruction_part with
      | none => { st with err := true }
      | some i =>
        let (st2, ok) := encode_instruction_with_stored_data i pd
          st.current_ic st
        if !ok then st2
        else { st2 with current_ic := st2.current_ic + pd.word_count,
                        idx := st2.idx + 1 }

/-- Model of `handle_entry_directive_second_pass` of second_pass.c.  NOTE: the caller
passes the text still beginning with the ".entry" keyword and this function
takes its FIRST token as the symbol name, so the looked-up name is ".entry"
itself; the model mirrors the source faithfully. -/
def handle_entry_directive_second_pass (line : List Char) (st : SPState) :
    SPState :=
  let ptr := line.dropWhile isspc
  match get_next_token ptr with
  | none => { st with err := true, has_errors := true }
  | some label =>
    match find_symbol label st.symbols with
    | none => { st with err := true, has_errors := true }
    | some sym =>
      if sym.is_external then { st with err := true, has_errors := true }
      else
        let (tbl, _) := mark_symbol_as_entry label st.symbols
        add_entry_symbol { st with symbols := tbl } label sym.address

/-- Model of `process_line_second_pass` of second_pass.c: skip past a leading label,
dispatch ".entry" to the entry handler, skip the first-pass directives, and
hand instruction lines to the plan-consuming encoder. -/
def process_line_second_pass (line : List Char)
    (plans : List InstructionData) (st : SPState) : SPState :=
  let rest := if (extract_label line).isSome then skip_label line else line
  match get_next_token rest with
  | none => st
  | some tok =>
    if tok = ".entry".data then handle_entry_directive_second_pass rest st
    else if tok = ".extern".data || tok = ".data".data ||
        tok = ".string".data || tok = ".mat".data then st
    else if is_instruction tok then
      handle_instruction_second_pass line plans st
    else st

/-- Line-loop body of `second_pass`: trimming and the blank/comment skip. -/
def second_pass_line (plans : List InstructionData) (st : SPState)
    (raw : List Char) : SPState :=
  let line := trim_whitespace raw
  if is_whitespace line || is_comment line then st
  else process_line_second_pass line plans st

/-- Result of `second_pass`: success flag (`!err_found`), the context
contents, and the final counters — the C stores `context->ICF = current_ic`
and `context->DCF = DC` after the loop.  `idx` is the value of the static
`instruction_index` when the pass finishes.  NOTE: nothing after the loop
compares the number of consumed plans with the number produced;
`validate_first_pass_data` exists in the file but is never called. -/
structure SecondPassOut where
  ok : Bool
  image : List (Nat × Int)
  entry_list : List (List Char × Int)
  external_list : List (List Char × Int)
  icf : Nat
  dcf : Nat
  idx : Nat
  symbols : List Symb
  deriving DecidableEq, Repr

/-- Model of `second_pass` of second_pass.c over the expanded lines, the plans and
symbol table produced by the first pass, the first-pass global `DC`, and the
incoming value of the static `instruction_index`. -/
def second_pass (lines : List (List Char)) (plans : List InstructionData)
    (symbols : List Symb) (dc : Nat) (idx0 : Nat) : SecondPassOut :=
  let st0 : SPState := { idx := idx0, symbols := symbols }
  let st := lines.foldl (fun s l => second_pass_line plans s l) st0
  { ok := !st.err, image := st.image, entry_list := st.entry_list,
    external_list := st.external_list, icf := st.current_ic, dcf := dc,
    idx := st.idx, symbols := st.symbols }

/-- Model of `validate_first_pass_data` of second_pass.c: only checks that the first
pass produced at least one instruction.  The function is declared and
defined but NEVER invoked anywhere in the source. -/
def validate_first_pass_data (plans : List InstructionData) : Bool :=
  decide (0 < plans.length)

/-! ### Output generation (output.c) -/

/-- One `<address> <word>` line of the object file. -/
def render_image_line (a : Nat) (w : Int) : String :=
  String.mk (address_to_base4 a) ++ " " ++ String.mk (decimal_to_base4 w)

/-- Model of `generate_object_file` of output.c as the list of emitted lines: the
header `<inst_count> <data_count>` with `inst_count = ICF - 100`, then the
instruction image in store order, then the data image at addresses
`ICF + index`. -/
def generate_object_lines (icf : Nat) (image : List (Nat × Int))
    (data : List Int) : List String :=
  let header := String.mk (count_to_base4 ((icf : Int) - 100)) ++ " " ++
    String.mk (count_to_base4 (data.length : Int))
  header :: (image.map (fun p => render_image_line p.1 p.2) ++
    data.enum.map (fun p => render_image_line (icf + p.1) p.2))

/-- Model of `generate_entries_file` of output.c as the list of emitted lines: one
`<name> <address_5_chars>` line per node, walking the list FROM THE HEAD. -/
def generate_entries_lines (entry_list : List (List Char × Int)) :
    List String :=
  entry_list.map (fun p =>
    String.mk p.1 ++ " " ++ String.mk (decimal_to_base4 p.2))

/-- Model of `generate_externals_file` of output.c as the list of emitted lines,
walking the list FROM THE HEAD. -/
def generate_externals_lines (external_list : List (List Char × Int)) :
    List String :=
  external_list.map (fun p =>
    String.mk p.1 ++ " " ++ String.mk (decimal_to_base4 p.2))

/-! ### Per-unit driver (assembler.c) -/

/-- Exit codes of error.h. -/
inductive ExitCode where
  | success
  | generalError
  | fileNotFound
  | mcroSyntaxError
  | firstPassError
  | secondPassError
  | writeError
  | fileEmpty
  | mcroReservedWord
  | mcroExtraText
  | mcroMissingEnd
  deriving DecidableEq, Repr

/-- Process-wide mutable state that SURVIVES from one translation unit to the
next in a batch.  `assemble` re-creates the symbol table, data image,
instruction image, entry and external lists and assembly context per unit,
`first_pass` resets `IC`, `DC`, `err_found` and the plan table, and
`preprocess` frees its macro table — but nothing ever resets the
function-local `static int instruction_index` of
`handle_instruction_second_pass`. -/
structure Globals where
  instruction_index : Nat
  deriving DecidableEq, Repr

/-- Model of `assemble` of assembler.c for one translation unit, on its expanded
(.am) lines: fresh symbol table and data image, first pass, second pass,
output generation (file writes always succeed in the model), and the cleanup
calls — which free the per-unit structures but leave the static plan index
untouched. -/
def assemble_unit (amLines : List (List Char)) (g : Globals) :
    ExitCode × Globals :=
  match first_pass amLines with
  | none => (ExitCode.firstPassError, g)
  | some fp =>
    let sp := second_pass amLines fp.plans fp.symbols fp.dcf
      g.instruction_index
    if sp.ok then (ExitCode.success, { instruction_index := sp.idx })
    else (ExitCode.secondPassError, { instruction_index := sp.idx })

/-! ### Macro preprocessor, validation pass (preprocessor.c)

`preprocess` runs a preliminary validation pass over the raw source before
any output is written; the write pass runs only if validation succeeds.  The
state machine below is that validation pass (lines 232-314 of the source).
The macro table is the append-ordered list of (name, body-lines) pairs, with
the caps `MAX_MACROS` = 50 and `MAX_MACRO_LINES` = 100. -/

instance exceptDecEq {ε α : Type} [DecidableEq ε] [DecidableEq α] :
    DecidableEq (Except ε α)
  | .ok a, .ok b =>
    if h : a = b then .isTrue (by rw [h])
    else .isFalse (by intro he; cases he; exact h rfl)
  | .ok _, .error _ => .isFalse (by intro h; cases h)
  | .error _, .ok _ => .isFalse (by intro h; cases h)
  | .error a, .error b =>
    if h : a = b then .isTrue (by rw [h])
    else .isFalse (by intro he; cases he; exact h rfl)

/-- Model of `get_first_word` of preprocessor.c: skip leading whitespace, copy at most
31 characters up to the next whitespace. -/
def get_first_word (line : List Char) : List Char :=
  ((line.dropWhile isspc).takeWhile (fun c => !isspc c)).take 31

/-- Macro table: (name, body lines) in registration order. -/
abbrev McroTable := List (List Char × List (List Char))

/-- Model of `add_macro` of preprocessor.c: fails when the table is full (50) or the
name is already registered. -/
def add_mcro (name : List Char) (tbl : McroTable) : Option McroTable :=
  if 50 ≤ tbl.length || (tbl.find? (fun p => p.1 = name)).isSome then none
  else some (tbl ++ [(name, [])])

/-- Model of `add_line_to_macro` of preprocessor.c: append the raw line to the body of
the named macro; fails when the macro is unknown or its body is full (100
lines). -/
def add_line_to_mcro (name : List Char) (line : List Char) :
    McroTable → Option McroTable
  | [] => none
  | (n, body) :: rest =>
    if n = name then
      if 100 ≤ body.length then none
      else some ((n, body ++ [line]) :: rest)
    else
      (add_line_to_mcro name line rest).map (fun r => (n, body) :: r)

/-- Model of `sscanf(line, "mcro %31s", name)` as used by the validation pass: the
literal "mcro" must match at the start of the line, then a non-empty token of
at most 31 characters is read. -/
def sscanf_mcro (line : List Char) : Option (List Char) :=
  if "mcro".data.isPrefixOf line then
    let rest := line.drop 4
    let name := ((rest.dropWhile isspc).takeWhile (fun c => !isspc c)).take 31
    if name = [] then none else some name
  else none

/-- Model of `sscanf(temp_line, "mcro %31s %s", ...) == 2` on the comment-stripped
line: is there a further token after the (at most 31 character) name? -/
def mcro_extra_text (line : List Char) : Bool :=
  let t := remove_comments line
  if "mcro".data.isPrefixOf t then
    let r1 := (t.drop 4).dropWhile isspc
    let name := (r1.takeWhile (fun c => !isspc c)).take 31
    let r2 := (r1.drop name.length).dropWhile isspc
    decide (r2 ≠ [])
  else false

/-- State of the validation pass: the `in_macro` flag, the name of the macro
being collected, and the macro table. -/
structure PreState where
  in_mcro : Bool := false
  cur : List Char := []
  tbl : McroTable := []
  deriving DecidableEq

/-- One line of the validation pass of `preprocess` (preprocessor.c lines
237-305): blank lines and `.entry`/`.extern` lines are skipped; outside a
macro a `mcro NAME` line registers the macro (checking the reserved-word
rule, extra text, duplicates and the table cap); INSIDE a macro body only
the exact first word "mcroend" closes the definition and EVERY other line —
a line starting with `mcro` included — is appended to the body. -/
def validate_step (st : PreState) (line : List Char) :
    Except ExitCode PreState :=
  if line.all (fun c => c = ' ' || c = '\t' || c = '\r' || c = '\n') then
    .ok st
  else
    let fw := get_first_word line
    if fw = ".entry".data || fw = ".extern".data then .ok st
    else if !st.in_mcro && fw = "mcro".data then
      match sscanf_mcro line with
      | none => .error ExitCode.mcroSyntaxError
      | some name =>
        if is_reserved_word name then .error ExitCode.mcroReservedWord
        else if mcro_extra_text line then .error ExitCode.mcroExtraText
        else
          match add_mcro name st.tbl with
          | none => .error ExitCode.mcroSyntaxError
          | some tbl => .ok { in_mcro := true, cur := name, tbl := tbl }
    else if st.in_mcro then
      if fw = "mcroend".data then .ok { st with in_mcro := false }
      else
        match add_line_to_mcro st.cur line st.tbl with
        | none => .error ExitCode.mcroSyntaxError
        | some tbl => .ok { st with tbl := tbl }
    else .ok st

/-- Validation pass of `preprocess`: fold the step over the source lines; at
end of input a still-open macro is the missing-end error.  On success the
collected macro table is returned and the write pass would run. -/
def preprocess_validate (lines : List (List Char)) :
    Except ExitCode McroTable := do
  let st ← lines.foldlM validate_step {}
  if st.in_mcro then .error ExitCode.mcroMissingEnd
  else .ok st.tbl

end Asm

example :
    Asm.preprocess_validate
        ["mcro A".data, "mcro B".data, "mcroend".data, "mcroend".data]
      = .ok [("A".data, ["mcro B".data])] := by decide

example :
    Asm.preprocess_validate ["mcro A".data, "inc r1".data]
      = .error .mcroMissingEnd := by decide

example :
    (Asm.second_pass ["MAIN: stop".data]
      [{ ic_address := 100, word_count := 1, first_word := 960,
         immediate_word := [] }]
      [{ name := "MAIN".data, address := 100, type := .code,
         is_entry := false, is_external := false }] 0 0).image
    = [(100, 960)] := by decide

example :
    Asm.assemble_unit ["MAIN: stop".data] { instruction_index := 0 }
      = (.success, { instruction_index := 1 }) := by decide

example :
    Asm.assemble_unit ["MAIN: stop".data] { instruction_index := 1 }
      = (.secondPassError, { instruction_index := 1 }) := by decide

example :
    Asm.first_pass ["MAIN: stop".data]
      = some { icf := 101, dcf := 0,
               symbols := [{ name := "MAIN".data, address := 100,
                             type := .code, is_entry := false,
                             is_external := false }],
               plans := [{ ic_address := 100, word_count := 1,
                           first_word := 960, immediate_word := [] }],
               image := [] } := by decide

example :
    (Asm.first_pass ["M: .mat [2][2] 5".data]).map
        (fun r => (r.icf, r.dcf, r.image))
      = some (100, 4, [5, 0, 0, 0]) := by decide

example :
    Asm.parse_instruction "stop".data
      = some { opcode := 15, word_count := 1 } := by decide
example :
    Asm.parse_instruction "add r1, r2".data
      = some { opcode := 2,
               source := { mode := .register, value := 1 },
               target := { mode := .register, value := 2 },
               word_count := 2, has_source := true, has_target := true } := by
  decide
example : Asm.parse_instruction "mov #4, #5".data = none := by decide
example :
    (Asm.parse_instruction "mov M[r1][r2], r3".data).map Asm.Instr.word_count
      = some 4 := by decide

example :
    Asm.parse_matrix " [2][2] 5".data { image := [], dc := 0, err := false }
      = { image := [5, 0, 0, 0], dc := 4, err := false } := by decide
example :
    Asm.parse_data_values " 7, 900, -3".data
        { image := [], dc := 0, err := false }
      = { image := [7, -3], dc := 2, err := true } := by decide
example :
    Asm.parse_string_value "\"ab\"".data { image := [], dc := 0, err := false }
      = { image := [97, 98, 0], dc := 3, err := false } := by decide

example : Asm.extract_label "MAIN: stop".data = some "MAIN".data := by decide
example : Asm.extract_label "stop".data = none := by decide
example : Asm.skip_label "MAIN: stop".data = "stop".data := by decide
example : Asm.strtok_all (· = ',') " r1, r2".data = [" r1".data, " r2".data] := by
  decide
example : Asm.strtol10 "-17x".data = (-17, "x".data, true) := by decide
example : Asm.after_strstr ".mat".data "  .mat [2][2] 5".data
    = some " [2][2] 5".data := by decide

/-! Quick sanity checks of the codec embedding. -/

example : Asm.decimal_to_base4 7 = ['a', 'a', 'a', 'b', 'd'] := by decide
example : Asm.decimal_to_base4 960 = ['d', 'd', 'a', 'a', 'a'] := by decide
example : Asm.decimal_to_base4 (-1) = ['d', 'd', 'd', 'd', 'd'] := by decide
example : Asm.address_to_base4 100 = ['b', 'c', 'b', 'a'] := by decide
example : Asm.count_to_base4 1 = ['b'] := by decide
example : Asm.count_to_base4 0 = ['a'] := by decide
example : Asm.base4_to_decimal 0 ['a', 'a', 'a', 'b', 'd'] = 7 := by decide
example : Asm.base4_to_decimal 0 ['d', 'd', 'd', 'd', 'd'] = -1 := by decide

/-! ## Claim theorems -/

namespace Asm

/-- C1.  The codec round-trip claim against the source: `decimal_to_base4`
does produce exactly five alphabet characters, but `base4_to_decimal` sums
the digits into an accumulator the C source NEVER INITIALISES, so the
decoded value is the encoded word plus whatever residue the uninitialised
`int result` holds: with residue 0 the word 7 decodes to the claimed 7, with
residue 1 it decodes to 8.  The claimed round-trip therefore fails under any
non-zero residue (undefined behaviour in the source). -/
theorem c1_base4_decimal_uninitialized :
    decimal_to_base4 7 = ['a', 'a', 'a', 'b', 'd'] ∧
    (decimal_to_base4 7).length = 5 ∧
    ((decimal_to_base4 7).all (fun c => (charVal c).isSome)) = true ∧
    base4_to_decimal 0 (decimal_to_base4 7) = 7 ∧
    base4_to_decimal 1 (decimal_to_base4 7) = 8 ∧ (8 : Int) ≠ 7 := by
  decide

/-- C2.  For `add r1, r2` the first pass plans word count 2 and first word
188, and the second pass emits exactly one extra word — but that word is
built as `(source.value << 6) | (source.value << 2)`, i.e. 68, encoding the
SOURCE register in both fields, not the claimed
`(1 << 6) | (2 << 2)` = 72 with the target register in bits 2-5. -/
theorem c2_register_pair_word :
    first_pass ["add r1, r2".data]
      = some { icf := 102, dcf := 0, symbols := [],
               plans := [{ ic_address := 100, word_count := 2,
                           first_word := 188, immediate_word := [] }],
               image := [] } ∧
    (second_pass ["add r1, r2".data]
        [{ ic_address := 100, word_count := 2, first_word := 188,
           immediate_word := [] }] [] 0 0).image
      = [(100, 188), (101, 68)] ∧
    (68 : Int) ≠ (((1 <<< 6) ||| (2 <<< 2) : Nat) : Int) := by
  decide

/-- C6.  The same single-instruction unit assembles successfully when it is
the first unit of a batch but FAILS with a second-pass error when it is
processed after that unit, because the function-local static
`instruction_index` of `handle_instruction_second_pass` keeps the value 1
left behind by the previous unit while the fresh plan table is consumed from
index 0. -/
theorem c6_static_index_leak :
    (assemble_unit ["MAIN: stop".data] { instruction_index := 0 })
      = (ExitCode.success, { instruction_index := 1 }) ∧
    (assemble_unit ["MAIN: stop".data] { instruction_index := 1 })
      = (ExitCode.secondPassError, { instruction_index := 1 }) ∧
    ExitCode.secondPassError ≠ ExitCode.success := by
  decide

/-- C7, counterexample.  A second pass that consumes no plan (no instruction
line) against a plan table holding one produced plan SUCCEEDS: the consumed
count 0 differs from the produced count 1 and no fatal internal error is
raised, because nothing after the loop compares the two counts. -/
theorem c7_no_integrity_check_counterexample :
    (second_pass []
        [{ ic_address := 100, word_count := 1, first_word := 960,
           immediate_word := [] }] [] 0 0).ok = true ∧
    (second_pass []
        [{ ic_address := 100, word_count := 1, first_word := 960,
           immediate_word := [] }] [] 0 0).idx = 0 ∧
    ([({ ic_address := 100, word_count := 1, first_word := 960,
         immediate_word := [] } : InstructionData)]).length = 1 ∧
    (0 : Nat) ≠ 1 := by
  decide

/-- C7, amended.  The second pass performs no post-loop integrity check:
over an empty line list it succeeds with zero plans consumed whatever the
produced plan table holds (`validate_first_pass_data` is defined but never
invoked); a missing plan is only ever detected DURING the loop, as the
per-line general error shown by the second conjunct. -/
theorem c7_second_pass_amended :
    (∀ (plans : List InstructionData) (symbols : List Symb) (dc idx0 : Nat),
      second_pass [] plans symbols dc idx0
        = { ok := true, image := [], entry_list := [], external_list := [],
            icf := 100, dcf := dc, idx := idx0, symbols := symbols }) ∧
    (second_pass ["stop".data] [] [] 0 0).ok = false := by
  refine ⟨fun plans symbols dc idx0 => rfl, by decide⟩

/-- C9, counterexample.  For the single-line source `MAIN: stop` the object
artifact is the header `b a` followed by ONE image line — but that line is
`bcba ddaaa`: address 100 renders as `bcba` (not the claimed `aaba`, which
is 4 in this alphabet) and the word 960 renders as the five characters
`ddaaa` (the claimed `aaddaa` has six characters). -/
theorem c9_main_stop_counterexample :
    ((first_pass ["MAIN: stop".data]).map (fun fp =>
      (generate_object_lines
        (second_pass ["MAIN: stop".data] fp.plans fp.symbols fp.dcf 0).icf
        (second_pass ["MAIN: stop".data] fp.plans fp.symbols fp.dcf 0).image
        fp.image)))
      = some ["b a", "bcba ddaaa"] ∧
    ("bcba ddaaa" : String) ≠ "aaba aaddaa" ∧
    String.mk (address_to_base4 100) = "bcba" ∧
    ("bcba" : String) ≠ "aaba" ∧
    String.mk (decimal_to_base4 960) = "ddaaa" ∧
    ("ddaaa" : String) ≠ "aaddaa" := by
  decide

/-- C9, amended.  `MAIN: stop` assembles with ICF = 101 and DCF = 0; the
object artifact header is `b a` (1 instruction, 0 data) and the single image
line renders address 100 as `bcba` and the word 960 (opcode 15 in bits 6-9,
all other bits zero) as `aaddaa` corrected to `ddaaa`. -/
theorem c9_main_stop_amended :
    first_pass ["MAIN: stop".data]
      = some { icf := 101, dcf := 0,
               symbols := [{ name := "MAIN".data, address := 100,
                             type := SymbolType.code, is_entry := false,
                             is_external := false }],
               plans := [{ ic_address := 100, word_count := 1,
                           first_word := 960, immediate_word := [] }],
               image := [] } ∧
    second_pass ["MAIN: stop".data]
        [{ ic_address := 100, word_count := 1, first_word := 960,
           immediate_word := [] }]
        [{ name := "MAIN".data, address := 100, type := SymbolType.code,
           is_entry := false, is_external := false }] 0 0
      = { ok := true, image := [(100, 960)], entry_list := [],
          external_list := [], icf := 101, dcf := 0, idx := 1,
          symbols := [{ name := "MAIN".data, address := 100,
                        type := SymbolType.code, is_entry := false,
                        is_external := false }] } ∧
    generate_object_lines 101 [(100, 960)] [] = ["b a", "bcba ddaaa"] ∧
    (960 : Nat) = 15 <<< 6 := by
  decide

/-- C3, counterexample.  `M: .mat [2][2] 5` appends the data words
`[5, 0, 0, 0]` and advances DC by 4: the dimensions 2 and 2 are never
stored, refuting the claimed `[2, 2, 5, 0, 0, 0]`. -/
theorem c3_mat_dimensions_counterexample :
    (first_pass ["M: .mat [2][2] 5".data]).map (fun r => (r.image, r.dcf))
      = some ([5, 0, 0, 0], 4) ∧
    ([5, 0, 0, 0] : List Int) ≠ [2, 2, 5, 0, 0, 0] := by
  decide

/-- C4, counterexample.  Appending the entry (A, 100) and then (B, 101)
during the second pass makes the entries artifact list B's line BEFORE A's —
the reverse of the claimed insertion order — because `add_entry_symbol`
pushes nodes at the head of the list that `generate_entries_file` then walks
from the head. -/
theorem c4_entries_order_counterexample :
    generate_entries_lines
        (add_entry_symbol
          (add_entry_symbol ({} : SPState) "A".data 100) "B".data 101
          ).entry_list
      = ["B abcbb", "A abcba"] ∧
    (["B abcbb", "A abcba"] : List String) ≠ ["A abcba", "B abcbb"] := by
  decide

set_option maxRecDepth 4000 in
/-- C5, counterexample.  A unit of 157 `stop` lines passes the first pass
with no error: it succeeds with ICF = 257 and DCF = 0 although
ICF + DCF = 257 exceeds 256 — the source freezes the counters and shifts the
data symbols but never compares ICF + DCF against any bound. -/
theorem c5_no_bound_check_counterexample :
    (first_pass (List.replicate 157 "stop".data)).map (fun r => (r.icf, r.dcf))
      = some (257, 0) ∧
    256 < 257 + 0 := by
  decide

/-- C8, counterexample.  A `mcro B` line read while the body of macro A is
being collected does NOT fail preprocessing: the validation pass accepts the
input and simply records "mcro B" as a body line of A. -/
theorem c8_nested_mcro_counterexample :
    preprocess_validate
        ["mcro A".data, "mcro B".data, "mcroend".data, "mcroend".data]
      = .ok [("A".data, ["mcro B".data])] ∧
    (Except.ok [("A".data, ["mcro B".data])] :
        Except ExitCode McroTable)
      ≠ .error ExitCode.mcroSyntaxError := by
  decide

end Asm

namespace Asm

/-- Folding `add_entry_symbol` over an insertion sequence prepends the
(truncated) pairs in reverse. -/
theorem entry_fold_list (ents : List (List Char × Int)) (st : SPState) :
    (ents.foldl (fun s p => add_entry_symbol s p.1 p.2) st).entry_list
      = (ents.map (fun p => (p.1.take 31, p.2))).reverse ++ st.entry_list := by
  induction ents generalizing st with
  | nil => simp
  | cons e rest ih =>
    rw [List.foldl_cons, ih]
    simp [add_entry_symbol]

/-- Folding `add_external_reference` over an insertion sequence prepends the
(truncated) pairs in reverse. -/
theorem external_fold_list (exts : List (List Char × Int)) (st : SPState) :
    (exts.foldl (fun s p => add_external_reference s p.1 p.2)
        st).external_list
      = (exts.map (fun p => (p.1.take 31, p.2))).reverse ++ st.external_list := by
  induction exts generalizing st with
  | nil => simp
  | cons e rest ih =>
    rw [List.foldl_cons, ih]
    simp [add_external_reference]

/-- C4, amended.  For every sequence of entry-list appends and every sequence
of external-reference appends performed during the second pass, the entries
artifact and the externals artifact list one line per node in exactly the
REVERSE of insertion order: `add_entry_symbol` and `add_external_reference`
push each node at the head of a singly-linked list and the generators walk
the list from the head. -/
theorem c4_artifact_lines_reverse_order (ents exts : List (List Char × Int)) :
    generate_entries_lines
        ((ents.foldl (fun s p => add_entry_symbol s p.1 p.2)
          ({} : SPState)).entry_list)
      = ((ents.map (fun p =>
          String.mk (p.1.take 31) ++ " " ++
            String.mk (decimal_to_base4 p.2))).reverse) ∧
    generate_externals_lines
        ((exts.foldl (fun s p => add_external_reference s p.1 p.2)
          ({} : SPState)).external_list)
      = ((exts.map (fun p =>
          String.mk (p.1.take 31) ++ " " ++
            String.mk (decimal_to_base4 p.2))).reverse) := by
  constructor
  · rw [entry_fold_list]
    simp [generate_entries_lines, List.map_reverse, Function.comp_def]
  · rw [external_fold_list]
    simp [generate_externals_lines, List.map_reverse, Function.comp_def]

/-- C5, amended.  Whenever the first-pass line loop finishes with no recorded
error, `first_pass` SUCCEEDS unconditionally — freezing the counters as
ICF / DCF and shifting every DATA symbol by ICF — with no check of
ICF + DCF against 256 or any other bound. -/
theorem c5_first_pass_epilogue_amended (lines : List (List Char))
    (h : (first_pass_loop lines).err = false) :
    first_pass lines
      = some { icf := (first_pass_loop lines).ic,
               dcf := (first_pass_loop lines).dc,
               symbols := update_data_symbols
                 ((first_pass_loop lines).ic : Int)
                 (first_pass_loop lines).symbols,
               plans := (first_pass_loop lines).plans,
               image := (first_pass_loop lines).image } := by
  simp [first_pass, h]

/-- C5, witness for the amended theorem at the one-line unit `stop`. -/
theorem c5_first_pass_epilogue_amended_witness :
    (first_pass_loop ["stop".data]).err = false ∧
    first_pass ["stop".data]
      = some { icf := (first_pass_loop ["stop".data]).ic,
               dcf := (first_pass_loop ["stop".data]).dc,
               symbols := update_data_symbols
                 ((first_pass_loop ["stop".data]).ic : Int)
                 (first_pass_loop ["stop".data]).symbols,
               plans := (first_pass_loop ["stop".data]).plans,
               image := (first_pass_loop ["stop".data]).image } :=
  ⟨by decide, c5_first_pass_epilogue_amended ["stop".data] (by decide)⟩

end Asm

namespace Asm

/-- C10.  On a `.data` value list in which every token is a syntactically
valid integer, the loop appends EVERY in-range value (in order) to the data
image, increments DC once per appended value, and records the line error
exactly when some value is out of range — the already-appended values and
the DC increments are not rolled back. -/
theorem c10_data_range_error_no_rollback
    (tokens : List (List Char)) (vals : List Int) (st : DPState)
    (hpar : tokens.map data_token_val = vals.map some)
    (hcap : st.image.length
        + (vals.filter (fun v => -512 ≤ v && v ≤ 511)).length ≤ 1000) :
    data_values_loop tokens st
      = { image := st.image ++ vals.filter (fun v => -512 ≤ v && v ≤ 511),
          dc := st.dc + (vals.filter (fun v => -512 ≤ v && v ≤ 511)).length,
          err := st.err || vals.any (fun v => v < -512 || 511 < v) } := by
  induction tokens generalizing vals st with
  | nil =>
    have hv : vals = [] := by
      cases vals with
      | nil => rfl
      | cons a l => simp at hpar
    subst hv
    simp [data_values_loop]
  | cons tok rest ih =>
    cases vals with
    | nil => simp at hpar
    | cons v vs =>
      simp only [List.map_cons, List.cons.injEq] at hpar
      obtain ⟨htok, hrest⟩ := hpar
      by_cases hr : v < -512 ∨ 511 < v
      · have hp : (decide (-512 ≤ v) && decide (v ≤ 511)) = false := by
          rcases hr with h | h <;> simp <;> omega
        have hb : (decide (v < -512) || decide (511 < v)) = true := by
          rcases hr with h | h <;> simp [h]
        have hcap' : st.image.length
            + (vs.filter (fun v => -512 ≤ v && v ≤ 511)).length ≤ 1000 := by
          simpa [List.filter_cons, hp] using hcap
        have hrec := ih vs { st with err := true } hrest hcap'
        simp only [data_values_loop, htok, hb, if_true]
        rw [hrec]
        simp [List.filter_cons, hp, hb]
      · push_neg at hr
        have hp : (decide (-512 ≤ v) && decide (v ≤ 511)) = true := by
          simp
          omega
        have hb : (decide (v < -512) || decide (511 < v)) = false := by
          simp only [Bool.or_eq_false_iff, decide_eq_false_iff_not]
          omega
        have hpos :
            0 < ((v :: vs).filter (fun v => -512 ≤ v && v ≤ 511)).length := by
          simp [List.filter_cons, hp]
        have hlen : ¬ 1000 ≤ st.image.length := by
          simp only [List.filter_cons, hp, if_true, List.length_cons] at hcap
          omega
        have hcap2 : (st.image ++ [v]).length
            + (vs.filter (fun v => -512 ≤ v && v ≤ 511)).length ≤ 1000 := by
          simp only [List.filter_cons, hp, if_true, List.length_cons] at hcap
          simp only [List.length_append, List.length_cons, List.length_nil]
          omega
        have hrec := ih vs (⟨st.image ++ [v], st.dc + 1, st.err⟩ : DPState)
          hrest (by simpa using hcap2)
        simp only [data_values_loop, htok, hb, store_data, hlen, if_false,
          Bool.not_true, Bool.false_eq_true, ite_false]
        rw [hrec]
        simp only [List.filter_cons, hp, if_true, List.append_assoc,
          List.singleton_append, List.length_cons, List.any_cons, hb,
          Bool.false_or, DPState.mk.injEq]
        exact ⟨trivial, by omega, trivial⟩

/-- C10, witness: the line `5, 900, -3` keeps 5 and −3 in the data image
with two DC increments and records the range error for 900. -/
theorem c10_data_range_error_no_rollback_witness :
    data_values_loop ["5".data, "900".data, "-3".data]
        { image := [], dc := 0, err := false }
      = { image := [5, -3], dc := 2, err := true } := by
  have h := c10_data_range_error_no_rollback
    ["5".data, "900".data, "-3".data] [5, 900, -3]
    { image := [], dc := 0, err := false } (by decide) (by decide)
  simpa using h

end Asm

namespace Asm

/-- When every token of the `.mat` value list parses as an integer and
neither the expected-count bound nor the data-image cap is hit, the value
loop stores the values in order, incrementing DC per value, and reports
`actual_values` with no abort. -/
theorem mat_values_loop_all_valid (exp : Nat) (tokens : List (List Char))
    (vals : List Int) (actual : Nat) (st : DPState)
    (hpar : tokens.map mat_token_val = vals.map some)
    (hk : actual + vals.length ≤ exp)
    (hcap : st.image.length + vals.length ≤ 1000) :
    mat_values_loop exp tokens actual st
      = ({ st with image := st.image ++ vals, dc := st.dc + vals.length },
          actual + vals.length, false) := by
  induction tokens generalizing vals actual st with
  | nil =>
    have hv : vals = [] := by
      cases vals with
      | nil => rfl
      | cons a l => simp at hpar
    subst hv
    simp [mat_values_loop]
  | cons tok rest ih =>
    cases vals with
    | nil => simp at hpar
    | cons v vs =>
      simp only [List.map_cons, List.cons.injEq] at hpar
      obtain ⟨htok, hrest⟩ := hpar
      have hnlt : ¬ exp < actual + 1 := by
        simp only [List.length_cons] at hk
        omega
      have hlen : ¬ 1000 ≤ st.image.length := by
        simp only [List.length_cons] at hcap
        omega
      have hcap2 : (st.image ++ [v]).length + vs.length ≤ 1000 := by
        simp only [List.length_append, List.length_cons, List.length_nil]
        simp only [List.length_cons] at hcap
        omega
      have hrec := ih vs (actual + 1)
        (⟨st.image ++ [v], st.dc + 1, st.err⟩ : DPState)
        hrest (by simp only [List.length_cons] at hk; omega)
        (by simpa using hcap2)
      simp only [mat_values_loop, htok, hnlt, store_data, hlen, if_false,
        Bool.not_true, Bool.false_eq_true, ite_false]
      rw [hrec]
      simp only [List.append_assoc, List.singleton_append, List.length_cons,
        Prod.mk.injEq, DPState.mk.injEq]
      exact ⟨⟨trivial, by omega, trivial⟩, by omega, trivial⟩

/-- The zero-fill loop of `parse_matrix` appends `n` zero words and advances
DC by `n` whenever the data image has room. -/
theorem mat_fill_eq (n : Nat) (st : DPState)
    (hcap : st.image.length + n ≤ 1000) :
    mat_fill n st
      = { st with
          image := st.image ++ List.replicate n 0,
          dc := st.dc + n } := by
  induction n generalizing st with
  | zero => simp [mat_fill]
  | succ m ih =>
    have hlen : ¬ 1000 ≤ st.image.length := by omega
    have hrec := ih (⟨st.image ++ [0], st.dc + 1, st.err⟩ : DPState)
      (by simp only [List.length_append, List.length_cons, List.length_nil]
          omega)
    simp only [mat_fill, store_data, hlen, if_false, Bool.not_true,
      Bool.false_eq_true, ite_false]
    rw [hrec]
    simp only [List.append_assoc, List.singleton_append,
      List.replicate_succ, DPState.mk.injEq]
    exact ⟨trivial, by omega, trivial⟩

/-- C3, amended.  For every `.mat` directive with dimensions R, C > 0 and
k ≤ R·C supplied integer values, the words appended to the data image are
the k values in order followed by R·C − k zero words — WITHOUT the two
dimension words the claim predicted — and DC advances by R·C. -/
theorem c3_mat_store_amended (rows cols : Nat) (values_part : List Char)
    (vals : List Int) (st : DPState)
    (hpar : (strtok_all (· = ',') values_part).map mat_token_val
      = vals.map some)
    (hk : vals.length ≤ rows * cols)
    (hcap : st.image.length + rows * cols ≤ 1000) :
    mat_store_phase (rows * cols) values_part st
      = { st with
          image := st.image ++ vals
            ++ List.replicate (rows * cols - vals.length) 0,
          dc := st.dc + rows * cols } := by
  unfold mat_store_phase
  cases values_part with
  | nil =>
    have hvals : vals = [] := by
      simp only [strtok_all, strtok_go] at hpar
      cases vals with
      | nil => rfl
      | cons a l => simp at hpar
    subst hvals
    by_cases hexp : 0 < rows * cols
    · simp only [hexp, if_true, if_false, Bool.false_eq_true]
      rw [mat_fill_eq _ _ (by simpa using hcap)]
      simp only [Nat.sub_zero, List.length_nil, List.append_nil,
        List.nil_append]
    · have h0 : rows * cols = 0 := by omega
      simp [h0]
  | cons c rest =>
    have hloop := mat_values_loop_all_valid (rows * cols)
      (strtok_all (· = ',') (c :: rest)) vals 0 st hpar
      (by omega) (by omega)
    simp only [hloop, Nat.zero_add]
    by_cases hlt : vals.length < rows * cols
    · simp only [hlt, if_true, if_false, Bool.false_eq_true]
      rw [mat_fill_eq _ _ (by
        simp only [List.length_append]
        omega)]
      have hdc : st.dc + vals.length + (rows * cols - vals.length)
          = st.dc + rows * cols := by omega
      rw [hdc]
    · have hv : vals.length = rows * cols := by omega
      simp only [hv, Nat.lt_irrefl, if_false, Bool.false_eq_true,
        Nat.sub_self, List.replicate_zero, List.append_nil]

/-- C3, witness for the amended theorem: `.mat [2][2] 5` appends
`[5, 0, 0, 0]` and advances DC by 4. -/
theorem c3_mat_store_amended_witness :
    mat_store_phase (2 * 2) " 5".data { image := [], dc := 0, err := false }
      = { image := [5, 0, 0, 0], dc := 4, err := false } := by
  have h := c3_mat_store_amended 2 2 " 5".data [5]
    { image := [], dc := 0, err := false } (by decide) (by decide) (by decide)
  simpa using h

end Asm

namespace Asm

/-- A line consisting only of the `strspn(" \t\r\n")` characters is consumed
entirely by an `isspc` dropWhile. -/
theorem blank_dropWhile (l : List Char)
    (h : l.all (fun c => c = ' ' || c = '\t' || c = '\r' || c = '\n') = true) :
    l.dropWhile isspc = [] := by
  induction l with
  | nil => rfl
  | cons c rest ih =>
    simp only [List.all_cons, Bool.and_eq_true] at h
    have hc : isspc c = true := by
      have h1 := h.1
      simp only [Bool.or_eq_true, decide_eq_true_eq] at h1
      rcases h1 with ((h1 | h1) | h1) | h1 <;> subst h1 <;> decide
    simp only [List.dropWhile_cons, hc, if_true]
    exact ih h.2

/-- C8, amended.  A line whose first word is `mcro`, read while the
preprocessor is collecting a macro body, is simply APPENDED to that body as
an ordinary line: the validation pass reports no error for it (nested macro
definitions are not detected). -/
theorem c8_nested_mcro_amended (st : PreState) (line : List Char)
    (tbl' : McroTable)
    (hin : st.in_mcro = true)
    (hfw : get_first_word line = "mcro".data)
    (hadd : add_line_to_mcro st.cur line st.tbl = some tbl') :
    validate_step st line = .ok { st with tbl := tbl' } := by
  have hnb : (line.all
      (fun c => c = ' ' || c = '\t' || c = '\r' || c = '\n')) = false := by
    cases hb : line.all
        (fun c => c = ' ' || c = '\t' || c = '\r' || c = '\n') with
    | false => rfl
    | true =>
      exfalso
      have hd := blank_dropWhile line hb
      rw [get_first_word, hd] at hfw
      exact absurd hfw (by decide)
  have hne : (decide ("mcro".data = ".entry".data)
      || decide ("mcro".data = ".extern".data)) = false := by decide
  have hnd : decide ("mcro".data = "mcroend".data) = false := by decide
  simp only [validate_step, hnb, Bool.false_eq_true, if_false, hfw, hne,
    hin, Bool.not_true, Bool.false_and, hnd, ite_false]
  simp [hadd]

end Asm

namespace Asm

/-- C8, witness for the amended theorem: while collecting macro A, the line
`mcro B` is appended to A's body and the step succeeds. -/
theorem c8_nested_mcro_amended_witness :
    validate_step
        { in_mcro := true, cur := "A".data, tbl := [("A".data, [])] }
        "mcro B".data
      = .ok { in_mcro := true, cur := "A".data,
              tbl := [("A".data, ["mcro B".data])] } :=
  c8_nested_mcro_amended
    { in_mcro := true, cur := "A".data, tbl := [("A".data, [])] }
    "mcro B".data [("A".data, ["mcro B".data])]
    rfl (by decide) (by decide)

end Asm
